import Mathlib

/-!
Verification development for the dartcounter repository.

The geometric scoring engine lives in `src/services/dartDetection.ts`
(class `DartDetectionService`), and the turn-based game session state
machine lives in `src/App.tsx` (component `App`), with UI guards in
`src/components/GameControls.tsx`.

Embedding conventions:
* JavaScript numbers are idealised as real numbers `ℝ`; the scoring
  classifier core (`calcFromPolar`), whose arithmetic is only
  field operations, floor and comparisons, is stated polymorphically
  over a `LinearOrderedField` with `FloorRing` so that it can also be
  evaluated exactly on `ℚ` (the decimal literals of the source are
  written as the exact fractions they denote).
* `Math.atan2(dy, dx)` is `Complex.arg ⟨dx, dy⟩` (both return an angle
  in `(-π, π]`), `Math.round x` is `⌊x + 1/2⌋`, and the JavaScript `%`
  operator — which is only ever applied to nonnegative dividends in
  this code — is floor-based remainder.
* `ImageData` pixel buffers are functions from pixel index to an RGB
  triple of naturals; canvas dimensions are naturals.
-/

/-- `{ score, multiplier }` — the result record of
`DartDetectionService.calculateScore`. -/
structure ScoreResult where
  score : ℤ
  multiplier : ℤ
deriving DecidableEq, Repr

/-- `dartDetection.ts` line 238:
`const segments = [20, 1, 18, 4, 13, 6, 10, 15, 2, 17, 3, 19, 7, 16, 8, 11, 14, 9, 12, 5]`. -/
def segments : List ℤ := [20, 1, 18, 4, 13, 6, 10, 15, 2, 17, 3, 19, 7, 16, 8, 11, 14, 9, 12, 5]

/-- JavaScript `x % 360` for the nonnegative dividends arising in
`calculateScore` (for `x ≥ 0` the truncated remainder of JavaScript
agrees with the floor-based remainder used here). -/
def jsMod360 {K : Type} [LinearOrderedField K] [FloorRing K] (x : K) : K :=
  x - 360 * (⌊x / 360⌋ : ℤ)

/-- `dartDetection.ts` lines 229–240: from the raw `Math.atan2` angle in
degrees, normalise to `[0, 360)` (`if (angle < 0) angle += 360`), shift so 0°
is at 12 o'clock (`angle = (angle + 90) % 360`), and look up the segment
value `segments[Math.floor(angle / 18) % 20]`. -/
def segmentScoreOf {K : Type} [LinearOrderedField K] [FloorRing K] (angle0 : K) : ℤ :=
  let angle1 := if angle0 < 0 then angle0 + 360 else angle0
  let angle := jsMod360 (angle1 + 90)
  segments.getD ((⌊angle / 18⌋).toNat % 20) 0

/-- `dartDetection.ts` lines 229–261: the body of `calculateScore` after the
two derived quantities have been computed — `nd` is `normalizedDistance`
(`distance / dartboardRadius`) and `angle0` is `Math.atan2(dy, dx) * 180 / π`.
The multiplier chain (lines 242–261) in source order:
`nd ≤ 0.06` inner bull, `nd ≤ 0.12` outer bull, `0.95 < nd ≤ 1.05` double,
`0.55 < nd ≤ 0.65` triple, `nd ≤ 0.95` single, otherwise miss. -/
def calcFromPolar {K : Type} [LinearOrderedField K] [FloorRing K] (nd angle0 : K) : ScoreResult :=
  if nd ≤ 6 / 100 then ⟨50, 1⟩
  else if nd ≤ 12 / 100 then ⟨25, 1⟩
  else if 95 / 100 < nd ∧ nd ≤ 105 / 100 then ⟨segmentScoreOf angle0, 2⟩
  else if 55 / 100 < nd ∧ nd ≤ 65 / 100 then ⟨segmentScoreOf angle0, 3⟩
  else if nd ≤ 95 / 100 then ⟨segmentScoreOf angle0, 1⟩
  else ⟨0, 1⟩

/-- `Math.atan2(dy, dx)` (radians in `(-π, π]`). -/
noncomputable def atan2 (dy dx : ℝ) : ℝ := Complex.arg ⟨dx, dy⟩

/-- `DartDetectionService.calculateScore` (`dartDetection.ts` lines 218–262).
The service holds `dartboardCenter : {x, y} | null` and
`dartboardRadius : number` (initially `0`); the guard
`if (!this.dartboardCenter || !this.dartboardRadius)` returns `{score: 0,
multiplier: 1}` when the center is unset or the radius is `0` (falsy). -/
noncomputable def calculateScore (dartboardCenter : Option (ℝ × ℝ)) (dartboardRadius : ℝ)
    (dartX dartY : ℝ) : ScoreResult :=
  match dartboardCenter with
  | none => ⟨0, 1⟩
  | some c =>
    if dartboardRadius = 0 then ⟨0, 1⟩
    else
      let dx := dartX - c.1
      let dy := dartY - c.2
      let distance := Real.sqrt (dx ^ 2 + dy ^ 2)
      calcFromPolar (distance / dartboardRadius) (atan2 dy dx * (180 / Real.pi))

/-- Modelled from the spec (§4.2, step 3), for comparison with the code:
`sectorIndex = floor(((angle + π + π/20) mod 2π) / (2π/20))`. -/
noncomputable def specSectorIndex (angle : ℝ) : ℤ :=
  ⌊((angle + Real.pi + Real.pi / 20) -
      (2 * Real.pi) * (⌊(angle + Real.pi + Real.pi / 20) / (2 * Real.pi)⌋ : ℤ)) /
    (2 * Real.pi / 20)⌋

/-! ## Game session state machine (`src/App.tsx`) -/

/-- `src/types/dart.ts` / `App.tsx`: game mode `'301' | '501' | 'cricket' | 'practice'`. -/
inductive GameMode where
  | m301
  | m501
  | cricket
  | practice
deriving DecidableEq, Repr

/-- A registered throw (`DartThrow`).  `id` is `` `${Date.now()}` `` and
`timestamp` is `Date.now()`; both are modelled by the `now` argument that
`registerThrow` takes explicitly. -/
structure DartThrow where
  id : ℕ
  score : ℤ
  multiplier : ℤ
  timestamp : ℕ
deriving DecidableEq, Repr

structure Player where
  id : String
  name : String
  score : ℤ
  throws : List DartThrow
deriving DecidableEq, Repr

/-- `GameState` from `src/types/dart.ts`, held in `App`'s `useState`. -/
structure GameState where
  players : List Player
  currentPlayerIndex : ℕ
  gameMode : GameMode
  isActive : Bool
deriving DecidableEq, Repr

/-- `App.tsx` lines 30–61, `registerThrow(score, multiplier)`: no-op when
`!prev.isActive`; otherwise append a fresh throw to the current player's
list, add `score * multiplier` to that player's running total, and advance
`currentPlayerIndex` to `(current + 1) % players.length` exactly when the
current player's post-append throw count is a multiple of 3.
`now` stands for `Date.now()`.  The `match` arm for an out-of-range
`currentPlayerIndex` (where the JavaScript would fault on
`undefined.throws`) returns the state unchanged; it is unreachable from
states the application maintains. -/
def registerThrow (now : ℕ) (score multiplier : ℤ) (prev : GameState) : GameState :=
  if prev.isActive = false then prev
  else
    match prev.players.get? prev.currentPlayerIndex with
    | none => prev
    | some currentPlayer =>
      let newThrow : DartThrow := ⟨now, score, multiplier, now⟩
      let updatedPlayer : Player :=
        { currentPlayer with
          throws := currentPlayer.throws ++ [newThrow]
          score := currentPlayer.score + score * multiplier }
      let updatedPlayers := prev.players.set prev.currentPlayerIndex updatedPlayer
      let throwsCount := updatedPlayer.throws.length
      let nextPlayerIndex :=
        if throwsCount % 3 = 0 then (prev.currentPlayerIndex + 1) % prev.players.length
        else prev.currentPlayerIndex
      { prev with players := updatedPlayers, currentPlayerIndex := nextPlayerIndex }

/-- `App.tsx` lines 148–158 (`startGame`), game-state part: activate, reset
every player's score and throws, current player back to 0. -/
def startGame (g : GameState) : GameState :=
  { g with
    isActive := true
    players := g.players.map fun p => { p with score := 0, throws := [] }
    currentPlayerIndex := 0 }

/-- `App.tsx` lines 160–166 (`endGame`): deactivate, history retained. -/
def endGame (g : GameState) : GameState := { g with isActive := false }

/-- `App.tsx` lines 168–173 (`changeGameMode`): sets the mode
unconditionally — the function itself has no `isActive` guard. -/
def changeGameMode (mode : GameMode) (g : GameState) : GameState := { g with gameMode := mode }

/-- `App.tsx` lines 132–146 (`updatePlayerCount`): rebuild the roster with
`count` slots, keeping existing players by index and synthesising
default-named players for new slots.  `currentPlayerIndex` is not touched. -/
def updatePlayerCount (count : ℕ) (g : GameState) : GameState :=
  { g with
    players := (List.range count).map fun i =>
      g.players.getD i ⟨toString (i + 1), "Player " ++ toString (i + 1), 0, []⟩ }

/-- `App.tsx` lines 124–130 (`updatePlayerName`).  Out-of-range `index`
(never produced by the UI, which renders one input per existing player)
leaves the list unchanged, where the JavaScript would create a sparse
array slot. -/
def updatePlayerName (index : ℕ) (newName : String) (g : GameState) : GameState :=
  match g.players.get? index with
  | none => g
  | some p => { g with players := g.players.set index { p with name := newName } }

/-- The `App` component state relevant to the session state machine:
the `gameState` object plus the `showPlayerSetup` flag that gates the
player-setup modal. -/
structure AppState where
  game : GameState
  showPlayerSetup : Bool
deriving DecidableEq, Repr

/-- The UI events that can mutate the session state, as wired in `App.tsx`
and `GameControls.tsx`. -/
inductive Op where
  | registerThrow (now : ℕ) (score multiplier : ℤ)
  | startGame
  | endGame
  | pressModeButton (mode : GameMode)
  | updatePlayerCount (count : ℕ)
  | updatePlayerName (index : ℕ) (newName : String)
  | openPlayerSetup
  | closePlayerSetup

/-- One UI event applied to the application state, with the guards the UI
imposes on each entry point:
* `registerThrow` can arrive at any time (manual buttons or the detection
  callback); it is internally guarded by `isActive`.
* the Start Game / Setup Players buttons are rendered only when
  `!isActive` (`GameControls.tsx` lines 78–86); `startGame` also closes
  the setup modal (`setShowPlayerSetup(false)`, `App.tsx` line 156).
* the End Game button is rendered only when `isActive` (lines 87–91).
* the four mode buttons carry `disabled={isActive}`
  (`GameControls.tsx` lines 43–75).
* the player-count buttons (values 1–6) and the name inputs live inside
  the setup modal, rendered only while `showPlayerSetup` is true
  (`App.tsx` lines 252–294). -/
def applyOp (s : AppState) : Op → AppState
  | .registerThrow now sc mult => { s with game := registerThrow now sc mult s.game }
  | .startGame =>
    if s.game.isActive then s else { game := startGame s.game, showPlayerSetup := false }
  | .endGame => if s.game.isActive then { s with game := endGame s.game } else s
  | .pressModeButton mode =>
    if s.game.isActive then s else { s with game := changeGameMode mode s.game }
  | .updatePlayerCount count =>
    if s.showPlayerSetup = true ∧ 1 ≤ count ∧ count ≤ 6 then
      { s with game := updatePlayerCount count s.game }
    else s
  | .updatePlayerName index newName =>
    if s.showPlayerSetup = true then { s with game := updatePlayerName index newName s.game }
    else s
  | .openPlayerSetup => if s.game.isActive then s else { s with showPlayerSetup := true }
  | .closePlayerSetup => { s with showPlayerSetup := false }

/-- Initial state (`App.tsx` lines 11–19, 27): two default players,
index 0, mode `'501'`, inactive; the setup modal starts closed. -/
def initialState : AppState :=
  { game :=
    { players :=
        [⟨"1", "Player 1", 0, []⟩, ⟨"2", "Player 2", 0, []⟩]
      currentPlayerIndex := 0
      gameMode := .m501
      isActive := false }
    showPlayerSetup := false }

/-- The state after a sequence of UI events from the initial state. -/
def runOps (ops : List Op) : AppState := ops.foldl applyOp initialState

/-- The session invariant maintained by the UI-guarded operations: the
roster is never empty, and while a game is in progress the current player
index is valid and the setup modal is closed. -/
def SessionInv (s : AppState) : Prop :=
  0 < s.game.players.length ∧
    (s.game.isActive = true →
      s.game.currentPlayerIndex < s.game.players.length ∧ s.showPlayerSetup = false)

/-! ## Impact detection (`dartDetection.ts` lines 28–101) -/

/-- The mutable fields of `DartDetectionService` used by the
frame-difference path: calibration (`dartboardCenter`, `dartboardRadius`),
the stored previous frame, and whether a detection callback is
registered.  A raw frame is its `ImageData.data` byte array, indexed
`4 * pixel + channel`. -/
structure ServiceState where
  dartboardCenter : Option (ℝ × ℝ)
  dartboardRadius : ℝ
  previousFrame : Option (ℕ → ℕ)
  hasCallback : Bool

/-- `detectFrameChanges` (lines 75–96): every pixel whose summed absolute
RGB delta exceeds the threshold 30, as `(x, y) = (p % width, p / width)`. -/
def detectFrameChanges (width numPixels : ℕ) (prevFrame currentFrame : ℕ → ℕ) :
    List (ℕ × ℕ) :=
  ((List.range numPixels).filter fun p =>
    30 < ((prevFrame (4 * p) : ℤ) - currentFrame (4 * p)).natAbs +
      ((prevFrame (4 * p + 1) : ℤ) - currentFrame (4 * p + 1)).natAbs +
      ((prevFrame (4 * p + 2) : ℤ) - currentFrame (4 * p + 2)).natAbs).map
    fun p => (p % width, p / width)

/-- `detectDartImpact` (lines 33–72): bail out when uncalibrated; compare
with the stored previous frame when present; keep the changed points whose
distance from the dartboard center is at most the radius; when their count
is in `(50, 1000)`, score the average position and — only if a callback is
registered and the score is strictly positive — emit `(score, multiplier)`.
Returns the emission (if any) and the updated service state (the current
frame is always stored for the next comparison once calibrated). -/
noncomputable def detectDartImpact (width height : ℕ) (frame : ℕ → ℕ) (s : ServiceState) :
    Option (ℤ × ℤ) × ServiceState :=
  match s.dartboardCenter with
  | none => (none, s)
  | some c =>
    if s.dartboardRadius = 0 then (none, s)
    else
      match s.previousFrame with
      | none => (none, { s with previousFrame := some frame })
      | some prev =>
        let changes := detectFrameChanges width (width * height) prev frame
        let dartboardChanges := changes.filter fun p =>
          decide (Real.sqrt (((p.1 : ℝ) - c.1) ^ 2 + ((p.2 : ℝ) - c.2) ^ 2) ≤ s.dartboardRadius)
        let emission :=
          if 50 < dartboardChanges.length ∧ dartboardChanges.length < 1000 then
            let avgX := (dartboardChanges.map fun p => (p.1 : ℝ)).sum / dartboardChanges.length
            let avgY := (dartboardChanges.map fun p => (p.2 : ℝ)).sum / dartboardChanges.length
            let result := calculateScore s.dartboardCenter s.dartboardRadius avgX avgY
            if s.hasCallback = true ∧ 0 < result.score then some (result.score, result.multiplier)
            else none
          else none
        (emission, { s with previousFrame := some frame })

/-! ## Auto-calibration (`dartDetection.ts` lines 461–575, `autoDetectDartboard`)

The nested `for` loops of the source are embedded as explicit candidate
lists plus a first-wins strict-argmax fold, preserving iteration order.
Loop-bound bookkeeping: the loop `for (v = lo; v < hi; v += step)` runs
its body for `v = lo + step*k` for every natural `k` with
`lo + step*k < hi`. -/

/-- `Math.round`: round half up. -/
noncomputable def jsRound (x : ℝ) : ℤ := ⌊x + 1 / 2⌋

/-- The number of naturals `k` with `100 * k < a` — the iteration count of
the center-grid loops (whose condition `size*0.2 + 20*k < size*0.8`
rewrites to `100*k < 3*size`). -/
def numLt100 (a : ℕ) : ℕ := (a + 99) / 100

/-- Lines 480–489: a pixel counts as dartboard-colored when near-black,
near-white, predominantly red or predominantly green. -/
def isBoardColor (rgb : ℕ × ℕ × ℕ) : Prop :=
  (rgb.1 < 80 ∧ rgb.2.1 < 80 ∧ rgb.2.2 < 80) ∨
  (200 < rgb.1 ∧ 200 < rgb.2.1 ∧ 200 < rgb.2.2) ∨
  (150 < rgb.1 ∧ rgb.2.1 < 100 ∧ rgb.2.2 < 100) ∨
  (rgb.1 < 100 ∧ 120 < rgb.2.1 ∧ rgb.2.2 < 100)

instance : DecidablePred isBoardColor := fun rgb => by unfold isBoardColor; infer_instance

/-- Lines 473–489: `colorScore[i/4] = 1` for dartboard-colored pixels
(array of size `width*height`, zero elsewhere). -/
def colorScoreMap (width height : ℕ) (frame : ℕ → ℕ × ℕ × ℕ) (p : ℕ) : ℕ :=
  if p < width * height ∧ isBoardColor (frame p) then 1 else 0

/-- In-bounds test `x >= 0 && x < width && y >= 0 && y < height`. -/
def inBounds (width height : ℕ) (x y : ℤ) : Prop :=
  0 ≤ x ∧ x < width ∧ 0 ≤ y ∧ y < height

instance (width height : ℕ) (x y : ℤ) : Decidable (inBounds width height x y) := by
  unfold inBounds; infer_instance

/-- The sampled point for angle index `k` (angle `10*k` degrees, converted
by `(angle * Math.PI) / 180`): `(Math.round(cx + r*cos), Math.round(cy + r*sin))`. -/
noncomputable def samplePoint (c : ℝ × ℝ) (r : ℝ) (k : ℕ) : ℤ × ℤ :=
  (jsRound (c.1 + r * Real.cos ((10 * k : ℝ) * Real.pi / 180)),
   jsRound (c.2 + r * Real.sin ((10 * k : ℝ) * Real.pi / 180)))

/-- Center-candidate score (lines 500–513): sum of `colorScore` over 36
sampled points of the circle of radius `testRadius` (out-of-bounds samples
contribute nothing). -/
noncomputable def ringScore (width height : ℕ) (cs : ℕ → ℕ) (c : ℝ × ℝ) (r : ℝ) : ℕ :=
  ∑ k ∈ Finset.range 36,
    (if inBounds width height (samplePoint c r k).1 (samplePoint c r k).2 then
      cs ((samplePoint c r k).2 * width + (samplePoint c r k).1).toNat
    else 0)

/-- Radius-candidate score (lines 529–550): like `ringScore`, but each
in-bounds outer sample additionally adds the `colorScore` of the inner-ring
sample at radius `r * 0.8` when that one is in bounds. -/
noncomputable def radiusScoreAt (width height : ℕ) (cs : ℕ → ℕ) (c : ℝ × ℝ) (r : ℝ) : ℕ :=
  ∑ k ∈ Finset.range 36,
    (if inBounds width height (samplePoint c r k).1 (samplePoint c r k).2 then
      cs ((samplePoint c r k).2 * width + (samplePoint c r k).1).toNat +
        (if inBounds width height (samplePoint c (r * (8 / 10)) k).1
            (samplePoint c (r * (8 / 10)) k).2 then
          cs ((samplePoint c (r * (8 / 10)) k).2 * width + (samplePoint c (r * (8 / 10)) k).1).toNat
        else 0)
    else 0)

/-- First-wins strict argmax with explicit initial candidate and initial
best score 0 — the `if (score > bestScore) { best... = ...; bestScore = score }`
accumulation pattern of both searches. -/
def argmaxFold {α : Type} (f : α → ℕ) (init : α) (l : List α) : α × ℕ :=
  l.foldl (fun bm x => if bm.2 < f x then (x, f x) else bm) (init, 0)

/-- Lines 496–521: the candidate centers `(cx, cy)`, `cy` outer loop from
`height*0.2` (step 20, while `< height*0.8`), `cx` inner from `width*0.2`. -/
noncomputable def centerCandidates (width height : ℕ) : List (ℝ × ℝ) :=
  (List.range (numLt100 (3 * height))).flatMap fun j : ℕ =>
    (List.range (numLt100 (3 * width))).map fun i : ℕ =>
      ((2 / 10 : ℝ) * width + 20 * (i : ℝ), (2 / 10 : ℝ) * height + 20 * (j : ℝ))

/-- Line 501: `testRadius = Math.min(width, height) * 0.25`. -/
noncomputable def testRadius (width height : ℕ) : ℝ := (min width height : ℕ) * (25 / 100)

/-- Lines 492–521: best center by the ring score, starting from
`(width/2, height/2)` with best score 0. -/
noncomputable def bestCenter (width height : ℕ) (frame : ℕ → ℕ × ℕ × ℕ) : (ℝ × ℝ) × ℕ :=
  argmaxFold (fun c => ringScore width height (colorScoreMap width height frame) c
      (testRadius width height))
    ((width : ℝ) / 2, (height : ℝ) / 2) (centerCandidates width height)

/-- Line 526: `minRadius = Math.min(width, height) * 0.15`. -/
noncomputable def minRadius (width height : ℕ) : ℝ := (min width height : ℕ) * (15 / 100)

/-- Lines 529: the radius loop `for (r = minRadius; r <= maxRadius; r += 3)`
with `maxRadius = min(width,height) * 0.45`; the bound
`0.15*m + 3*k ≤ 0.45*m` rewrites to `10*k ≤ m`, i.e. `k ≤ m / 10`. -/
noncomputable def radiusCandidates (width height : ℕ) : List ℝ :=
  (List.range (min width height / 10 + 1)).map fun k : ℕ =>
    minRadius width height + 3 * (k : ℝ)

/-- Lines 523–556: best radius around the best center, initial best radius
0 with best score 0. -/
noncomputable def bestRadius (width height : ℕ) (frame : ℕ → ℕ × ℕ × ℕ) : ℝ × ℕ :=
  argmaxFold
    (fun r => radiusScoreAt width height (colorScoreMap width height frame)
      (bestCenter width height frame).1 r)
    0 (radiusCandidates width height)

/-- `autoDetectDartboard` (lines 461–575): accept the detected circle only
if `bestScore > 5 && bestRadius > minRadius`; otherwise fall back to the
frame center with radius `min(width, height) / 3`. -/
noncomputable def autoDetectDartboard (width height : ℕ) (frame : ℕ → ℕ × ℕ × ℕ) : ℤ × ℤ × ℤ :=
  if 5 < (bestCenter width height frame).2 ∧
      minRadius width height < (bestRadius width height frame).1 then
    (jsRound (bestCenter width height frame).1.1, jsRound (bestCenter width height frame).1.2,
     jsRound (bestRadius width height frame).1)
  else
    (jsRound ((width : ℝ) / 2), jsRound ((height : ℝ) / 2), jsRound ((min width height : ℕ) / 3))

/-! ## Theorems: the scoring classifier (claims C1–C4) -/

/-- Helper: `calculateScore` on a calibrated service (center set, nonzero
radius) is the polar classifier applied to the normalized distance and the
`atan2` angle in degrees. -/
theorem calculateScore_some (cx cy r px py : ℝ) (hr : r ≠ 0) :
    calculateScore (some (cx, cy)) r px py =
      calcFromPolar (Real.sqrt ((px - cx) ^ 2 + (py - cy) ^ 2) / r)
        (atan2 (py - cy) (px - cx) * (180 / Real.pi)) := by
  simp only [calculateScore, if_neg hr]

/-- C1 (amended): with a positive board radius, `calculateScore` returns
`{50,1}` when the normalized distance is at most 0.06, `{25,1}` when it is
in (0.06, 0.12], and `{0,1}` (miss) when it exceeds 1.05.  (The claim's
bounds 0.04 / 0.07 / 1.0 are not the code's; see the counterexample.) -/
theorem calculateScore_bull_and_miss_bands (cx cy radius px py : ℝ) (hr : 0 < radius) :
    (Real.sqrt ((px - cx) ^ 2 + (py - cy) ^ 2) / radius ≤ 6 / 100 →
      calculateScore (some (cx, cy)) radius px py = ⟨50, 1⟩) ∧
    (6 / 100 < Real.sqrt ((px - cx) ^ 2 + (py - cy) ^ 2) / radius →
      Real.sqrt ((px - cx) ^ 2 + (py - cy) ^ 2) / radius ≤ 12 / 100 →
      calculateScore (some (cx, cy)) radius px py = ⟨25, 1⟩) ∧
    (105 / 100 < Real.sqrt ((px - cx) ^ 2 + (py - cy) ^ 2) / radius →
      calculateScore (some (cx, cy)) radius px py = ⟨0, 1⟩) := by
  rw [calculateScore_some cx cy radius px py (ne_of_gt hr)]
  set nd := Real.sqrt ((px - cx) ^ 2 + (py - cy) ^ 2) / radius with hnd
  unfold calcFromPolar
  refine ⟨fun h1 => ?_, fun h1 h2 => ?_, fun h1 => ?_⟩
  · rw [if_pos h1]
  · rw [if_neg (not_le.mpr h1), if_pos h2]
  · rw [if_neg (by intro hc; linarith), if_neg (by intro hc; linarith),
      if_neg (by intro hc; linarith [hc.2]), if_neg (by intro hc; linarith [hc.2]),
      if_neg (by intro hc; linarith)]

/-- Witness for C1 (amended) at center (0,0), radius 1, point (0.05, 0):
normalized distance 0.05 lies in the inner bull. -/
theorem calculateScore_bull_and_miss_bands_witness :
    (0 : ℝ) < 1 ∧ calculateScore (some (0, 0)) 1 (1 / 20) 0 = ⟨50, 1⟩ :=
  ⟨by norm_num,
   (calculateScore_bull_and_miss_bands 0 0 1 (1 / 20) 0 (by norm_num)).1 (by
     rw [show ((1 / 20 : ℝ) - 0) ^ 2 + ((0 : ℝ) - 0) ^ 2 = (1 / 20) ^ 2 by norm_num,
       Real.sqrt_sq (by norm_num : (0 : ℝ) ≤ 1 / 20)]
     norm_num)⟩

/-- C1 counterexample: at center (0,0), radius 1, point (0.05, 0) the
normalized distance 0.05 satisfies 0.04 < nd ≤ 0.07, where the claim
demands `{25,1}`, but the code returns `{50,1}` (its inner-bull threshold
is 0.06, not 0.04). -/
theorem calculateScore_c1_counterexample :
    (4 / 100 < Real.sqrt (((1 / 20 : ℝ) - 0) ^ 2 + ((0 : ℝ) - 0) ^ 2) / 1 ∧
      Real.sqrt (((1 / 20 : ℝ) - 0) ^ 2 + ((0 : ℝ) - 0) ^ 2) / 1 ≤ 7 / 100) ∧
    calculateScore (some (0, 0)) 1 (1 / 20) 0 = ⟨50, 1⟩ ∧
    (⟨50, 1⟩ : ScoreResult) ≠ ⟨25, 1⟩ := by
  have hs : Real.sqrt (((1 / 20 : ℝ) - 0) ^ 2 + ((0 : ℝ) - 0) ^ 2) = 1 / 20 := by
    rw [show ((1 / 20 : ℝ) - 0) ^ 2 + ((0 : ℝ) - 0) ^ 2 = (1 / 20) ^ 2 by norm_num,
      Real.sqrt_sq (by norm_num : (0 : ℝ) ≤ 1 / 20)]
  refine ⟨⟨?_, ?_⟩, ?_, ?_⟩
  · rw [hs]; norm_num
  · rw [hs]; norm_num
  · rw [calculateScore_some 0 0 1 (1 / 20) 0 one_ne_zero, hs]
    norm_num [calcFromPolar]
  · decide

/-- C2 (amended): outside the bull region (normalized distance above
0.12), the multiplier is 3 exactly on the band (0.55, 0.65], 2 exactly on
the band (0.95, 1.05], and 1 otherwise as long as the point is on the
board (nd ≤ 1.05).  (The claim's inclusive bands [0.58, 0.65] and
[0.95, 1.0] are not the code's; see the counterexample.) -/
theorem calculateScore_ring_bands (cx cy radius px py : ℝ) (hr : 0 < radius)
    (hlo : 12 / 100 < Real.sqrt ((px - cx) ^ 2 + (py - cy) ^ 2) / radius) :
    ((calculateScore (some (cx, cy)) radius px py).multiplier = 3 ↔
      (55 / 100 < Real.sqrt ((px - cx) ^ 2 + (py - cy) ^ 2) / radius ∧
        Real.sqrt ((px - cx) ^ 2 + (py - cy) ^ 2) / radius ≤ 65 / 100)) ∧
    ((calculateScore (some (cx, cy)) radius px py).multiplier = 2 ↔
      (95 / 100 < Real.sqrt ((px - cx) ^ 2 + (py - cy) ^ 2) / radius ∧
        Real.sqrt ((px - cx) ^ 2 + (py - cy) ^ 2) / radius ≤ 105 / 100)) ∧
    (¬(55 / 100 < Real.sqrt ((px - cx) ^ 2 + (py - cy) ^ 2) / radius ∧
        Real.sqrt ((px - cx) ^ 2 + (py - cy) ^ 2) / radius ≤ 65 / 100) →
      ¬(95 / 100 < Real.sqrt ((px - cx) ^ 2 + (py - cy) ^ 2) / radius ∧
        Real.sqrt ((px - cx) ^ 2 + (py - cy) ^ 2) / radius ≤ 105 / 100) →
      Real.sqrt ((px - cx) ^ 2 + (py - cy) ^ 2) / radius ≤ 105 / 100 →
      (calculateScore (some (cx, cy)) radius px py).multiplier = 1) := by
  rw [calculateScore_some cx cy radius px py (ne_of_gt hr)]
  set nd := Real.sqrt ((px - cx) ^ 2 + (py - cy) ^ 2) / radius with hnd
  unfold calcFromPolar
  rw [if_neg (by intro hc; linarith), if_neg (by intro hc; linarith)]
  by_cases hd : 95 / 100 < nd ∧ nd ≤ 105 / 100
  · rw [if_pos hd]
    refine ⟨?_, ?_, ?_⟩
    · simp only [ScoreResult.multiplier]
      constructor
      · intro h; exact absurd h (by norm_num)
      · intro h; exfalso; linarith [hd.1, h.2]
    · simp only [ScoreResult.multiplier]
      exact iff_of_true (by trivial) hd
    · intro _ h2 _; exact absurd hd h2
  · rw [if_neg hd]
    by_cases ht : 55 / 100 < nd ∧ nd ≤ 65 / 100
    · rw [if_pos ht]
      refine ⟨?_, ?_, ?_⟩
      · simp only [ScoreResult.multiplier]
        exact iff_of_true (by trivial) ht
      · simp only [ScoreResult.multiplier]
        constructor
        · intro h; exact absurd h (by norm_num)
        · intro h; exact absurd h hd
      · intro h1 _ _; exact absurd ht h1
    · rw [if_neg ht]
      by_cases hs : nd ≤ 95 / 100
      · rw [if_pos hs]
        refine ⟨?_, ?_, ?_⟩
        · simp only [ScoreResult.multiplier]
          constructor
          · intro h; exact absurd h (by norm_num)
          · intro h; exact absurd h ht
        · simp only [ScoreResult.multiplier]
          constructor
          · intro h; exact absurd h (by norm_num)
          · intro h; exact absurd h hd
        · intro _ _ _; rfl
      · rw [if_neg hs]
        refine ⟨?_, ?_, ?_⟩
        · simp only [ScoreResult.multiplier]
          constructor
          · intro h; exact absurd h (by norm_num)
          · intro h; exact absurd h ht
        · simp only [ScoreResult.multiplier]
          constructor
          · intro h; exact absurd h (by norm_num)
          · intro h; exact absurd h hd
        · intro _ h2 h3; exact absurd ⟨not_le.mp hs, h3⟩ h2

/-- Witness for C2 (amended) at center (0,0), radius 1, point (0.6, 0):
normalized distance 0.6 lies in the triple band (0.55, 0.65]. -/
theorem calculateScore_ring_bands_witness :
    ((0 : ℝ) < 1 ∧
      12 / 100 < Real.sqrt (((6 / 10 : ℝ) - 0) ^ 2 + ((0 : ℝ) - 0) ^ 2) / 1) ∧
    (calculateScore (some (0, 0)) 1 (6 / 10) 0).multiplier = 3 := by
  have hs : Real.sqrt (((6 / 10 : ℝ) - 0) ^ 2 + ((0 : ℝ) - 0) ^ 2) = 6 / 10 := by
    rw [show ((6 / 10 : ℝ) - 0) ^ 2 + ((0 : ℝ) - 0) ^ 2 = (6 / 10) ^ 2 by norm_num,
      Real.sqrt_sq (by norm_num : (0 : ℝ) ≤ 6 / 10)]
  refine ⟨⟨by norm_num, by rw [hs]; norm_num⟩, ?_⟩
  exact (calculateScore_ring_bands 0 0 1 (6 / 10) 0 (by norm_num)
    (by rw [hs]; norm_num)).1.mpr ⟨by rw [hs]; norm_num, by rw [hs]; norm_num⟩

/-- C2 counterexample: at center (0,0), radius 1, point (0.56, 0) the
normalized distance 0.56 lies in (0.07, 1.0] but in neither claimed band
[0.58, 0.65] nor [0.95, 1.0], so the claim demands multiplier 1 — yet the
code returns multiplier 3 (its triple band starts above 0.55). -/
theorem calculateScore_c2_counterexample :
    (7 / 100 < Real.sqrt (((14 / 25 : ℝ) - 0) ^ 2 + ((0 : ℝ) - 0) ^ 2) / 1 ∧
      Real.sqrt (((14 / 25 : ℝ) - 0) ^ 2 + ((0 : ℝ) - 0) ^ 2) / 1 ≤ 1) ∧
    ¬(58 / 100 ≤ Real.sqrt (((14 / 25 : ℝ) - 0) ^ 2 + ((0 : ℝ) - 0) ^ 2) / 1 ∧
        Real.sqrt (((14 / 25 : ℝ) - 0) ^ 2 + ((0 : ℝ) - 0) ^ 2) / 1 ≤ 65 / 100) ∧
    ¬(95 / 100 ≤ Real.sqrt (((14 / 25 : ℝ) - 0) ^ 2 + ((0 : ℝ) - 0) ^ 2) / 1) ∧
    (calculateScore (some (0, 0)) 1 (14 / 25) 0).multiplier = 3 := by
  have hs : Real.sqrt (((14 / 25 : ℝ) - 0) ^ 2 + ((0 : ℝ) - 0) ^ 2) = 14 / 25 := by
    rw [show ((14 / 25 : ℝ) - 0) ^ 2 + ((0 : ℝ) - 0) ^ 2 = (14 / 25) ^ 2 by norm_num,
      Real.sqrt_sq (by norm_num : (0 : ℝ) ≤ 14 / 25)]
  refine ⟨⟨by rw [hs]; norm_num, by rw [hs]; norm_num⟩, ?_, ?_, ?_⟩
  · rw [hs]; intro h; norm_num at h
  · rw [hs]; norm_num
  · rw [calculateScore_some 0 0 1 (14 / 25) 0 one_ne_zero, hs]
    norm_num [calcFromPolar]

/-- Helper: `Math.atan2(0, x) = 0` for `x ≥ 0`. -/
theorem atan2_zero_of_nonneg (x : ℝ) (hx : 0 ≤ x) : atan2 0 x = 0 := by
  show Complex.arg ⟨x, 0⟩ = 0
  exact Complex.arg_ofReal_of_nonneg hx

/-- C3 (amended): the code maps the `atan2` angle (in degrees) to a sector
with `Math.floor(((angle < 0 ? angle + 360 : angle) + 90) % 360 / 18)` —
there is no half-sector offset — and at each of the 20 sector midpoints
(`atan2` angle `18k − 81` degrees, `k = 0..19`) the returned segment value
follows the documented sequence `[20, 1, 18, ..., 5]` in order. -/
theorem calcFromPolar_sector_midpoints :
    ∀ k : ℕ, k < 20 →
      calcFromPolar ((3 : ℝ) / 10) (18 * (k : ℝ) - 81) = ⟨segments.getD k 0, 1⟩ := by
  intro k hk
  interval_cases k <;> norm_num [calcFromPolar, segmentScoreOf, jsMod360] <;> decide

/-- Witness for C3 (amended) at the first midpoint (`k = 0`, angle −81°):
the segment value is `segments[0] = 20`. -/
theorem calcFromPolar_sector_midpoints_witness :
    (0 : ℕ) < 20 ∧ calcFromPolar ((3 : ℝ) / 10) (18 * ((0 : ℕ) : ℝ) - 81) = ⟨segments.getD 0 0, 1⟩ :=
  ⟨by norm_num, calcFromPolar_sector_midpoints 0 (by norm_num)⟩

/-- C3 counterexample: at center (0,0), radius 1, point (0.3, 0) the
`atan2` angle is 0.  The claimed formula
`floor(((angle + π + π/20) mod 2π) / (2π/20))` gives sector 10, whose
documented value is `segments[10] = 3`, but the code returns segment 6 —
the code has no half-sector offset, so the claimed mapping disagrees with
the code away from the code's own sector midpoints. -/
theorem calculateScore_c3_counterexample :
    specSectorIndex 0 = 10 ∧
    segments.getD ((Int.toNat (specSectorIndex 0)) % 20) 0 = 3 ∧
    calculateScore (some (0, 0)) 1 (3 / 10) 0 = ⟨6, 1⟩ := by
  have hpi : Real.pi ≠ 0 := Real.pi_ne_zero
  have h1 : ((0 : ℝ) + Real.pi + Real.pi / 20) / (2 * Real.pi) = 21 / 40 := by
    field_simp
    ring
  have h2 : ⌊((0 : ℝ) + Real.pi + Real.pi / 20) / (2 * Real.pi)⌋ = 0 := by
    rw [h1]; norm_num
  have h10 : specSectorIndex 0 = 10 := by
    unfold specSectorIndex
    rw [h2]
    have h3 : ((0 : ℝ) + Real.pi + Real.pi / 20 - 2 * Real.pi * ((0 : ℤ) : ℝ)) /
        (2 * Real.pi / 20) = 21 / 2 := by
      push_cast
      field_simp
      ring
    rw [h3]
    norm_num
  refine ⟨h10, by rw [h10]; decide, ?_⟩
  have hs : Real.sqrt (((3 / 10 : ℝ) - 0) ^ 2 + ((0 : ℝ) - 0) ^ 2) = 3 / 10 := by
    rw [show ((3 / 10 : ℝ) - 0) ^ 2 + ((0 : ℝ) - 0) ^ 2 = (3 / 10) ^ 2 by norm_num,
      Real.sqrt_sq (by norm_num : (0 : ℝ) ≤ 3 / 10)]
  rw [calculateScore_some 0 0 1 (3 / 10) 0 one_ne_zero, hs,
    show (0 : ℝ) - 0 = 0 by norm_num, show (3 / 10 : ℝ) - 0 = 3 / 10 by norm_num,
    atan2_zero_of_nonneg (3 / 10) (by norm_num)]
  norm_num [calcFromPolar, segmentScoreOf, jsMod360]
  decide

/-- C4 (amended): invoked before any calibration — center unset, or radius
still its initial falsy 0 — `calculateScore` returns the plain `{0, 1}`
record, the very same value it returns for a genuine miss; there is no
distinguishable not-calibrated signal at this level. -/
theorem calculateScore_uncalibrated_silent_zero (radius x y : ℝ) (c : ℝ × ℝ) :
    calculateScore none radius x y = ⟨0, 1⟩ ∧ calculateScore (some c) 0 x y = ⟨0, 1⟩ := by
  constructor
  · rfl
  · simp [calculateScore]

/-- C4 counterexample: the uncalibrated result `{0,1}` is exactly equal to
the result for a genuine miss (center (0,0), radius 1, point (2,0) —
normalized distance 2 > 1.05), so a caller cannot distinguish the two. -/
theorem calculateScore_c4_counterexample :
    calculateScore none 1 7 7 = ⟨0, 1⟩ ∧
    calculateScore (some (0, 0)) 1 2 0 = ⟨0, 1⟩ ∧
    calculateScore none 1 7 7 = calculateScore (some (0, 0)) 1 2 0 := by
  have hs : Real.sqrt (((2 : ℝ) - 0) ^ 2 + ((0 : ℝ) - 0) ^ 2) = 2 := by
    rw [show ((2 : ℝ) - 0) ^ 2 + ((0 : ℝ) - 0) ^ 2 = (2 : ℝ) ^ 2 by norm_num,
      Real.sqrt_sq (by norm_num : (0 : ℝ) ≤ 2)]
  have hmiss : calculateScore (some (0, 0)) 1 2 0 = ⟨0, 1⟩ := by
    rw [calculateScore_some 0 0 1 2 0 one_ne_zero, hs]
    norm_num [calcFromPolar]
  exact ⟨rfl, hmiss, by rw [hmiss]; rfl⟩

/-! ## Theorems: the game session state machine (claims C5–C8) -/

/-- C5: on an active session with a valid current player, `registerThrow`
appends exactly one throw to that player's list (leaving everyone else in
place), adds `score * multiplier` to the running total, and advances
`currentPlayerIndex` to `(current + 1) % players.length` if and only if the
player's own post-append throw count is a multiple of 3; and with 2
players starting fresh, three calls advance the index from 0 to 1 exactly
on the 3rd call. -/
theorem registerThrow_spec :
    (∀ (g : GameState) (now : ℕ) (sc mult : ℤ) (cp : Player),
      g.isActive = true → g.players.get? g.currentPlayerIndex = some cp →
      registerThrow now sc mult g =
        { g with
          players := g.players.set g.currentPlayerIndex
            { cp with throws := cp.throws ++ [⟨now, sc, mult, now⟩],
                      score := cp.score + sc * mult }
          currentPlayerIndex :=
            if (cp.throws.length + 1) % 3 = 0 then
              (g.currentPlayerIndex + 1) % g.players.length
            else g.currentPlayerIndex }) ∧
    (∀ (id1 nm1 : String) (sc1 : ℤ) (p2 : Player) (mode : GameMode)
        (n1 n2 n3 : ℕ) (s1 m1 s2 m2 s3 m3 : ℤ),
      (registerThrow n1 s1 m1
        (GameState.mk [Player.mk id1 nm1 sc1 [], p2] 0 mode true)).currentPlayerIndex = 0 ∧
      (registerThrow n2 s2 m2 (registerThrow n1 s1 m1
        (GameState.mk [Player.mk id1 nm1 sc1 [], p2] 0 mode true))).currentPlayerIndex = 0 ∧
      (registerThrow n3 s3 m3 (registerThrow n2 s2 m2 (registerThrow n1 s1 m1
        (GameState.mk [Player.mk id1 nm1 sc1 [], p2] 0 mode true)))).currentPlayerIndex = 1) := by
  constructor
  · intro g now sc mult cp hact hget
    unfold registerThrow
    rw [hact, hget]
    simp [List.length_append]
  · intro id1 nm1 sc1 p2 mode n1 n2 n3 s1 m1 s2 m2 s3 m3
    refine ⟨rfl, rfl, by simp [registerThrow]⟩

/-- Witness for C5 on a concrete started session. -/
theorem registerThrow_spec_witness :
    ((startGame initialState.game).isActive = true ∧
      (startGame initialState.game).players.get?
        (startGame initialState.game).currentPlayerIndex =
        some ⟨"1", "Player 1", 0, []⟩) ∧
    registerThrow 5 20 3 (startGame initialState.game) =
      { startGame initialState.game with
        players := (startGame initialState.game).players.set
          (startGame initialState.game).currentPlayerIndex
          { (⟨"1", "Player 1", 0, []⟩ : Player) with
            throws := [] ++ [⟨5, 20, 3, 5⟩], score := 0 + 20 * 3 }
        currentPlayerIndex :=
          if (([] : List DartThrow).length + 1) % 3 = 0 then
            ((startGame initialState.game).currentPlayerIndex + 1) %
              (startGame initialState.game).players.length
          else (startGame initialState.game).currentPlayerIndex } :=
  ⟨⟨rfl, rfl⟩, registerThrow_spec.1 (startGame initialState.game) 5 20 3 _ rfl rfl⟩

/-- C6: `registerThrow` on an inactive session returns the state
unchanged — no throw appended, no score changed, no rotation. -/
theorem registerThrow_inactive_noop (g : GameState) (h : g.isActive = false)
    (now : ℕ) (sc mult : ℤ) : registerThrow now sc mult g = g := by
  unfold registerThrow
  rw [h]
  rfl

/-- Witness for C6: the initial (inactive) state is untouched. -/
theorem registerThrow_inactive_noop_witness :
    initialState.game.isActive = false ∧
    registerThrow 0 7 2 initialState.game = initialState.game :=
  ⟨rfl, registerThrow_inactive_noop initialState.game rfl 0 7 2⟩

/-- `registerThrow` never changes the roster size. -/
theorem registerThrow_players_length (now : ℕ) (sc mult : ℤ) (g : GameState) :
    (registerThrow now sc mult g).players.length = g.players.length := by
  unfold registerThrow
  split
  · rfl
  · split
    · rfl
    · simp [List.length_set]

/-- `registerThrow` never changes `isActive`. -/
theorem registerThrow_isActive (now : ℕ) (sc mult : ℤ) (g : GameState) :
    (registerThrow now sc mult g).isActive = g.isActive := by
  unfold registerThrow
  split
  · rfl
  · split <;> rfl

/-- `registerThrow` never changes the game mode. -/
theorem registerThrow_gameMode (now : ℕ) (sc mult : ℤ) (g : GameState) :
    (registerThrow now sc mult g).gameMode = g.gameMode := by
  unfold registerThrow
  split
  · rfl
  · split <;> rfl

/-- `registerThrow` keeps the current player index in range. -/
theorem registerThrow_index_lt (now : ℕ) (sc mult : ℤ) (g : GameState)
    (hidx : g.currentPlayerIndex < g.players.length) (hpos : 0 < g.players.length) :
    (registerThrow now sc mult g).currentPlayerIndex <
      (registerThrow now sc mult g).players.length := by
  rw [registerThrow_players_length]
  unfold registerThrow
  split
  · exact hidx
  · split
    · exact hidx
    · dsimp only
      split
      · exact Nat.mod_lt _ hpos
      · exact hidx

/-- `updatePlayerName` never changes `isActive`. -/
theorem updatePlayerName_isActive (index : ℕ) (newName : String) (g : GameState) :
    (updatePlayerName index newName g).isActive = g.isActive := by
  unfold updatePlayerName
  split <;> rfl

/-- `updatePlayerName` never changes the roster size. -/
theorem updatePlayerName_players_length (index : ℕ) (newName : String) (g : GameState) :
    (updatePlayerName index newName g).players.length = g.players.length := by
  unfold updatePlayerName
  split
  · rfl
  · simp [List.length_set]

/-- Every UI-guarded operation preserves the session invariant. -/
theorem sessionInv_applyOp (s : AppState) (op : Op) (h : SessionInv s) :
    SessionInv (applyOp s op) := by
  obtain ⟨h1, h2⟩ := h
  cases op with
  | registerThrow now sc mult =>
    refine ⟨?_, fun ha => ?_⟩
    · show 0 < (registerThrow now sc mult s.game).players.length
      rw [registerThrow_players_length]; exact h1
    · have hact : s.game.isActive = true := by
        rw [← registerThrow_isActive now sc mult s.game]; exact ha
      obtain ⟨hidx, hmodal⟩ := h2 hact
      exact ⟨registerThrow_index_lt now sc mult s.game hidx h1, hmodal⟩
  | startGame =>
    by_cases ha : s.game.isActive = true
    · simp only [applyOp, ha, if_true]
      exact ⟨h1, h2⟩
    · have ha' : s.game.isActive = false := by revert ha; cases s.game.isActive <;> simp
      simp only [applyOp, ha', Bool.false_eq_true, if_false]
      refine ⟨?_, fun _ => ⟨?_, rfl⟩⟩
      · show 0 < (startGame s.game).players.length
        simpa [startGame] using h1
      · show (startGame s.game).currentPlayerIndex < (startGame s.game).players.length
        simpa [startGame] using h1
  | endGame =>
    by_cases ha : s.game.isActive = true
    · simp only [applyOp, ha, if_true]
      refine ⟨h1, fun hq => ?_⟩
      simp [endGame] at hq
    · have ha' : s.game.isActive = false := by revert ha; cases s.game.isActive <;> simp
      simp only [applyOp, ha', Bool.false_eq_true, if_false]
      exact ⟨h1, h2⟩
  | pressModeButton mode =>
    by_cases ha : s.game.isActive = true
    · simp only [applyOp, ha, if_true]
      exact ⟨h1, h2⟩
    · have ha' : s.game.isActive = false := by revert ha; cases s.game.isActive <;> simp
      simp only [applyOp, ha', Bool.false_eq_true, if_false]
      refine ⟨h1, fun hq => ?_⟩
      rw [show (changeGameMode mode s.game).isActive = s.game.isActive from rfl, ha'] at hq
      cases hq
  | updatePlayerCount count =>
    by_cases hg : s.showPlayerSetup = true ∧ 1 ≤ count ∧ count ≤ 6
    · simp only [applyOp, if_pos hg]
      refine ⟨?_, fun hq => ?_⟩
      · show 0 < (updatePlayerCount count s.game).players.length
        simp only [updatePlayerCount, List.length_map, List.length_range]
        omega
      · have hact : s.game.isActive = true := hq
        have hmodal := (h2 hact).2
        rw [hmodal] at hg
        cases hg.1
    · simp only [applyOp, if_neg hg]
      exact ⟨h1, h2⟩
  | updatePlayerName index newName =>
    by_cases hg : s.showPlayerSetup = true
    · simp only [applyOp, if_pos hg]
      refine ⟨?_, fun hq => ?_⟩
      · show 0 < (updatePlayerName index newName s.game).players.length
        rw [updatePlayerName_players_length]; exact h1
      · have hact : s.game.isActive = true := by
          rw [← updatePlayerName_isActive index newName s.game]; exact hq
        have hmodal := (h2 hact).2
        rw [hmodal] at hg
        cases hg
    · simp only [applyOp, if_neg hg]
      exact ⟨h1, h2⟩
  | openPlayerSetup =>
    by_cases ha : s.game.isActive = true
    · simp only [applyOp, ha, if_true]
      exact ⟨h1, h2⟩
    · have ha' : s.game.isActive = false := by revert ha; cases s.game.isActive <;> simp
      simp only [applyOp, ha', Bool.false_eq_true, if_false]
      refine ⟨h1, fun hq => ?_⟩
      rw [ha'] at hq
      cases hq
  | closePlayerSetup =>
    exact ⟨h1, fun hq => ⟨(h2 hq).1, rfl⟩⟩

/-- The session invariant holds in every state reachable from the initial
state through the UI-guarded operations. -/
theorem sessionInv_runOps (ops : List Op) : SessionInv (runOps ops) := by
  have step : ∀ (l : List Op) (s : AppState), SessionInv s → SessionInv (l.foldl applyOp s) := by
    intro l
    induction l with
    | nil => exact fun s hs => hs
    | cons op t ih => exact fun s hs => ih _ (sessionInv_applyOp s op hs)
  refine step ops initialState ⟨by decide, fun hq => ?_⟩
  cases hq

/-- C7 (amended): in every state reachable through the UI-guarded
operations, `currentPlayerIndex` is in `[0, players.length)` whenever the
session is active.  (Without the `isActive` restriction the claim fails:
shrinking the roster after a game ended mid-rotation leaves a stale index —
see the counterexample.) -/
theorem runOps_active_index_in_range (ops : List Op)
    (h : (runOps ops).game.isActive = true) :
    (runOps ops).game.currentPlayerIndex < (runOps ops).game.players.length :=
  ((sessionInv_runOps ops).2 h).1

/-- Witness for C7 (amended): immediately after starting a game. -/
theorem runOps_active_index_in_range_witness :
    (runOps [Op.startGame]).game.isActive = true ∧
    (runOps [Op.startGame]).game.currentPlayerIndex <
      (runOps [Op.startGame]).game.players.length :=
  ⟨rfl, runOps_active_index_in_range [Op.startGame] rfl⟩

/-- C7 counterexample: start a 2-player game, let player 1 finish a turn
(3 throws — the index advances to 1), end the game, open the setup modal
and shrink the roster to 1 player.  The resulting reachable state has
`players.length = 1 > 0` but `currentPlayerIndex = 1`, outside
`[0, players.length)`. -/
theorem runOps_index_out_of_range_counterexample :
    0 < (runOps [Op.startGame, Op.registerThrow 0 20 1, Op.registerThrow 1 20 1,
        Op.registerThrow 2 20 1, Op.endGame, Op.openPlayerSetup,
        Op.updatePlayerCount 1]).game.players.length ∧
    ¬((runOps [Op.startGame, Op.registerThrow 0 20 1, Op.registerThrow 1 20 1,
        Op.registerThrow 2 20 1, Op.endGame, Op.openPlayerSetup,
        Op.updatePlayerCount 1]).game.currentPlayerIndex <
      (runOps [Op.startGame, Op.registerThrow 0 20 1, Op.registerThrow 1 20 1,
        Op.registerThrow 2 20 1, Op.endGame, Op.openPlayerSetup,
        Op.updatePlayerCount 1]).game.players.length) := by
  constructor
  · decide
  · decide

/-- C8 counterexample: in the reachable active state right after
`startGame` (mode `'501'`), a direct `changeGameMode('301')` call — the
`App.tsx` callback has no `isActive` guard — does change the mode. -/
theorem changeGameMode_active_counterexample :
    (runOps [Op.startGame]).game.isActive = true ∧
    (changeGameMode GameMode.m301 (runOps [Op.startGame]).game).gameMode ≠
      (runOps [Op.startGame]).game.gameMode := by
  exact ⟨rfl, by decide⟩

/-- C8 (amended): the raw `changeGameMode` callback applies the mode
unconditionally (see the counterexample), but every UI entry point issuing
it — the four mode buttons — is `disabled={isActive}`, so no UI event
changes `gameMode` while the session is in progress. -/
theorem applyOp_gameMode_unchanged_while_active (s : AppState) (op : Op)
    (h : s.game.isActive = true) : (applyOp s op).game.gameMode = s.game.gameMode := by
  cases op with
  | registerThrow now sc mult => exact registerThrow_gameMode now sc mult s.game
  | startGame => simp only [applyOp, h, if_true]
  | endGame => simp only [applyOp, h, if_true]; rfl
  | pressModeButton mode => simp only [applyOp, h, if_true]
  | updatePlayerCount count =>
    simp only [applyOp]
    split
    · rfl
    · rfl
  | updatePlayerName index newName =>
    simp only [applyOp]
    split
    · show (updatePlayerName index newName s.game).gameMode = s.game.gameMode
      unfold updatePlayerName
      split <;> rfl
    · rfl
  | openPlayerSetup => simp only [applyOp, h, if_true]
  | closePlayerSetup => rfl

/-- Witness for C8 (amended): pressing the `'301'` mode button in the
active state right after `startGame` leaves the mode unchanged. -/
theorem applyOp_gameMode_unchanged_while_active_witness :
    (runOps [Op.startGame]).game.isActive = true ∧
    (applyOp (runOps [Op.startGame]) (Op.pressModeButton GameMode.m301)).game.gameMode =
      (runOps [Op.startGame]).game.gameMode :=
  ⟨rfl, applyOp_gameMode_unchanged_while_active (runOps [Op.startGame])
    (Op.pressModeButton GameMode.m301) rfl⟩

/-! ## Theorems: the automatic-detection path (claim C10) -/

/-- C10: for any service state and frame pair, the automatic-detection
path emits through the callback only results with strictly positive score:
whatever `detectDartImpact` does — bail out when uncalibrated, skip when
the change count is out of range, or score the averaged impact point — a
zero score (a miss, or the uncalibrated zero) is never forwarded. -/
theorem detectDartImpact_emits_only_positive (width height : ℕ) (frame : ℕ → ℕ)
    (s : ServiceState) :
    Option.all (fun r => decide (0 < r.1)) (detectDartImpact width height frame s).1 = true := by
  unfold detectDartImpact
  cases s.dartboardCenter with
  | none => rfl
  | some c =>
    dsimp only
    split
    · rfl
    · cases s.previousFrame with
      | none => rfl
      | some prev =>
        dsimp only
        split
        · split
          · next hpos =>
            simp [Option.all, hpos.2]
          · rfl
        · rfl

/-! ## Theorems: auto-calibration on a uniform black frame (claim C9) -/

/-- `Math.round` is monotone. -/
theorem jsRound_le_jsRound {x y : ℝ} (h : x ≤ y) : jsRound x ≤ jsRound y :=
  Int.floor_le_floor (by linarith)

/-- Core monotonicity of the sampling geometry: if the rounded coordinate
`round(c + r₂·s)` of an outer sample is inside `[0, n)`, then so is the
one at any smaller radius `r₁ ≤ r₂`, provided the center coordinate `c`
itself rounds into `[0, n)` (which `0 ≤ c` and `c + 1/2 < n` guarantee).
The sampled coordinate moves monotonically in `r` (away from the center,
in the direction given by the sign of `s`). -/
theorem jsRound_inBounds_anti (c : ℝ) (n : ℕ) (s r1 r2 : ℝ) (hc0 : 0 ≤ c)
    (hcn : c + 1 / 2 < n) (hr0 : 0 ≤ r1) (hr : r1 ≤ r2)
    (h : 0 ≤ jsRound (c + r2 * s) ∧ jsRound (c + r2 * s) < n) :
    0 ≤ jsRound (c + r1 * s) ∧ jsRound (c + r1 * s) < n := by
  rcases le_total 0 s with hs | hs
  · have hm : r1 * s ≤ r2 * s := mul_le_mul_of_nonneg_right hr hs
    have hnn : 0 ≤ r1 * s := mul_nonneg hr0 hs
    constructor
    · exact Int.le_floor.mpr (by push_cast; linarith)
    · exact lt_of_le_of_lt (jsRound_le_jsRound (by linarith)) h.2
  · have hm : r2 * s ≤ r1 * s := mul_le_mul_of_nonpos_right hr hs
    have hnp : r1 * s ≤ 0 := by nlinarith
    constructor
    · exact le_trans h.1 (jsRound_le_jsRound (by linarith))
    · calc jsRound (c + r1 * s) ≤ jsRound c := jsRound_le_jsRound (by linarith)
        _ < (n : ℤ) := Int.floor_lt.mpr (by push_cast; linarith)

/-- On an all-black frame every pixel is board-colored, so any in-bounds
sample reads `colorScore = 1`. -/
theorem colorScoreMap_allBlack (width height : ℕ) (frame : ℕ → ℕ × ℕ × ℕ)
    (hf : ∀ p, frame p = (0, 0, 0)) (x y : ℤ) (hib : inBounds width height x y) :
    colorScoreMap width height frame (y * width + x).toNat = 1 := by
  obtain ⟨hx0, hxw, hy0, hyh⟩ := hib
  have hw0 : 0 < width := by
    rcases Nat.eq_zero_or_pos width with h | h
    · rw [h] at hxw; omega
    · exact h
  have hidx : y * width + x < (width * height : ℤ) := by
    calc y * width + x < y * width + width := by omega
      _ = (y + 1) * width := by ring
      _ ≤ height * width := by
        apply mul_le_mul_of_nonneg_right _ (by positivity)
        omega
      _ = width * height := by ring
  have hwh : width * height ≠ 0 := by
    have : (0 : ℤ) < width * height := lt_of_le_of_lt (by positivity) hidx
    exact_mod_cast ne_of_gt (by exact_mod_cast this : 0 < width * height)
  unfold colorScoreMap
  rw [if_pos]
  refine ⟨?_, ?_⟩
  · rw [Int.toNat_lt' hwh]
    exact_mod_cast hidx
  · rw [hf]
    unfold isBoardColor
    left
    exact ⟨by norm_num, by norm_num, by norm_num⟩

/-- Radius-to-bounds monotonicity lifted to whole sample points. -/
theorem samplePoint_inBounds_anti (width height : ℕ) (c : ℝ × ℝ) (k : ℕ)
    (hcx0 : 0 ≤ c.1) (hcxw : c.1 + 1 / 2 < width) (hcy0 : 0 ≤ c.2) (hcyh : c.2 + 1 / 2 < height)
    (r1 r2 : ℝ) (hr0 : 0 ≤ r1) (hr : r1 ≤ r2)
    (h : inBounds width height (samplePoint c r2 k).1 (samplePoint c r2 k).2) :
    inBounds width height (samplePoint c r1 k).1 (samplePoint c r1 k).2 := by
  obtain ⟨a1, a2, a3, a4⟩ := h
  unfold samplePoint at a1 a2 a3 a4 ⊢
  dsimp only at a1 a2 a3 a4 ⊢
  have hx := jsRound_inBounds_anti c.1 width (Real.cos ((10 * k : ℝ) * Real.pi / 180))
    r1 r2 hcx0 hcxw hr0 hr ⟨a1, a2⟩
  have hy := jsRound_inBounds_anti c.2 height (Real.sin ((10 * k : ℝ) * Real.pi / 180))
    r1 r2 hcy0 hcyh hr0 hr ⟨a3, a4⟩
  exact ⟨hx.1, hx.2, hy.1, hy.2⟩

/-- On an all-black frame the radius-candidate score is antitone in the
radius: every in-bounds sample contributes exactly 1 (plus an inner-ring
1 when that sample is in bounds too), and shrinking the radius keeps
samples in bounds. -/
theorem radiusScoreAt_anti (width height : ℕ) (frame : ℕ → ℕ × ℕ × ℕ)
    (hf : ∀ p, frame p = (0, 0, 0)) (c : ℝ × ℝ)
    (hcx0 : 0 ≤ c.1) (hcxw : c.1 + 1 / 2 < width) (hcy0 : 0 ≤ c.2) (hcyh : c.2 + 1 / 2 < height)
    (r1 r2 : ℝ) (hr0 : 0 ≤ r1) (hr : r1 ≤ r2) :
    radiusScoreAt width height (colorScoreMap width height frame) c r2 ≤
      radiusScoreAt width height (colorScoreMap width height frame) c r1 := by
  unfold radiusScoreAt
  apply Finset.sum_le_sum
  intro k _
  by_cases ho2 : inBounds width height (samplePoint c r2 k).1 (samplePoint c r2 k).2
  · have ho1 : inBounds width height (samplePoint c r1 k).1 (samplePoint c r1 k).2 :=
      samplePoint_inBounds_anti width height c k hcx0 hcxw hcy0 hcyh r1 r2 hr0 hr ho2
    rw [if_pos ho2, if_pos ho1,
      colorScoreMap_allBlack width height frame hf _ _ ho2,
      colorScoreMap_allBlack width height frame hf _ _ ho1]
    have hinner :
        (if inBounds width height (samplePoint c (r2 * (8 / 10)) k).1
            (samplePoint c (r2 * (8 / 10)) k).2 then
          colorScoreMap width height frame
            ((samplePoint c (r2 * (8 / 10)) k).2 * width + (samplePoint c (r2 * (8 / 10)) k).1).toNat
        else 0) ≤
        (if inBounds width height (samplePoint c (r1 * (8 / 10)) k).1
            (samplePoint c (r1 * (8 / 10)) k).2 then
          colorScoreMap width height frame
            ((samplePoint c (r1 * (8 / 10)) k).2 * width + (samplePoint c (r1 * (8 / 10)) k).1).toNat
        else 0) := by
      by_cases hi2 : inBounds width height (samplePoint c (r2 * (8 / 10)) k).1
          (samplePoint c (r2 * (8 / 10)) k).2
      · have hi1 : inBounds width height (samplePoint c (r1 * (8 / 10)) k).1
            (samplePoint c (r1 * (8 / 10)) k).2 :=
          samplePoint_inBounds_anti width height c k hcx0 hcxw hcy0 hcyh
            (r1 * (8 / 10)) (r2 * (8 / 10)) (by positivity)
            (by nlinarith) hi2
        rw [if_pos hi2, if_pos hi1,
          colorScoreMap_allBlack width height frame hf _ _ hi2,
          colorScoreMap_allBlack width height frame hf _ _ hi1]
      · rw [if_neg hi2]
        exact Nat.zero_le _
    exact Nat.add_le_add_left hinner 1
  · rw [if_neg ho2]
    exact Nat.zero_le _

/-- In the strict-argmax fold, a running best that already dominates every
remaining score is never displaced. -/
theorem argmaxFold_foldl_const {α : Type} (f : α → ℕ) (l : List α) (b : α) (m : ℕ)
    (h : ∀ x ∈ l, f x ≤ m) :
    l.foldl (fun bm x => if bm.2 < f x then (x, f x) else bm) (b, m) = (b, m) := by
  induction l with
  | nil => rfl
  | cons a t ih =>
    simp only [List.foldl_cons]
    rw [if_neg (not_lt.mpr (h a (List.mem_cons_self a t)))]
    exact ih fun x hx => h x (List.mem_cons_of_mem a hx)

/-- If the head of the candidate list scores at least as well as every
later candidate, the strict argmax is the initial value (all scores zero)
or the head. -/
theorem argmaxFold_fst_of_head_max {α : Type} (f : α → ℕ) (init r0 : α) (rest : List α)
    (h : ∀ x ∈ rest, f x ≤ f r0) :
    (argmaxFold f init (r0 :: rest)).1 = init ∨ (argmaxFold f init (r0 :: rest)).1 = r0 := by
  unfold argmaxFold
  simp only [List.foldl_cons]
  by_cases h0 : 0 < f r0
  · rw [if_pos h0, argmaxFold_foldl_const f rest r0 (f r0) h]
    exact Or.inr rfl
  · rw [if_neg h0, argmaxFold_foldl_const f rest init 0
      fun x hx => le_trans (h x hx) (Nat.le_of_not_lt h0)]
    exact Or.inl rfl

/-- The strict argmax returns the initial value or a list member. -/
theorem argmaxFold_fst_mem {α : Type} (f : α → ℕ) (init : α) (l : List α) :
    (argmaxFold f init l).1 = init ∨ (argmaxFold f init l).1 ∈ l := by
  unfold argmaxFold
  suffices h : ∀ (l : List α) (b : α) (m : ℕ),
      (l.foldl (fun bm x => if bm.2 < f x then (x, f x) else bm) (b, m)).1 = b ∨
      (l.foldl (fun bm x => if bm.2 < f x then (x, f x) else bm) (b, m)).1 ∈ l by
    exact h l init 0
  intro l
  induction l with
  | nil => exact fun b m => Or.inl rfl
  | cons a t ih =>
    intro b m
    simp only [List.foldl_cons]
    by_cases ha : m < f a
    · rw [if_pos ha]
      rcases ih a (f a) with h1 | h1
      · exact Or.inr (by rw [h1]; exact List.mem_cons_self a t)
      · exact Or.inr (List.mem_cons_of_mem a h1)
    · rw [if_neg ha]
      rcases ih b m with h1 | h1
      · exact Or.inl h1
      · exact Or.inr (List.mem_cons_of_mem a h1)

/-- The center-loop iteration count: `k` iterates while `100*k < a`. -/
theorem numLt100_lt (a i : ℕ) : i < numLt100 a ↔ 100 * i < a := by
  unfold numLt100
  omega

/-- Every grid candidate center satisfies the rounding bounds needed for
the radius-score monotonicity (frames at least 3×3): the grid stays in
the central 60% of the frame. -/
theorem centerCandidates_bounds (width height : ℕ) (hw : 3 ≤ width) (hh : 3 ≤ height)
    (c : ℝ × ℝ) (hc : c ∈ centerCandidates width height) :
    0 ≤ c.1 ∧ c.1 + 1 / 2 < width ∧ 0 ≤ c.2 ∧ c.2 + 1 / 2 < height := by
  have hwR : (3 : ℝ) ≤ width := by exact_mod_cast hw
  have hhR : (3 : ℝ) ≤ height := by exact_mod_cast hh
  unfold centerCandidates at hc
  rw [List.mem_flatMap] at hc
  obtain ⟨j, hj, hc⟩ := hc
  rw [List.mem_map] at hc
  obtain ⟨i, hi, hc⟩ := hc
  rw [List.mem_range, numLt100_lt] at hi hj
  have hiR : (100 : ℝ) * i < 3 * width := by exact_mod_cast hi
  have hjR : (100 : ℝ) * j < 3 * height := by exact_mod_cast hj
  rw [← hc]
  refine ⟨by positivity, by dsimp only; linarith, by positivity, by dsimp only; linarith⟩

/-- Whatever center the grid search picks — a grid candidate or the
initial frame center — its coordinates satisfy the rounding bounds. -/
theorem bestCenter_fst_bounds (width height : ℕ) (frame : ℕ → ℕ × ℕ × ℕ)
    (hw : 3 ≤ width) (hh : 3 ≤ height) :
    0 ≤ (bestCenter width height frame).1.1 ∧
    (bestCenter width height frame).1.1 + 1 / 2 < width ∧
    0 ≤ (bestCenter width height frame).1.2 ∧
    (bestCenter width height frame).1.2 + 1 / 2 < height := by
  have hwR : (3 : ℝ) ≤ width := by exact_mod_cast hw
  have hhR : (3 : ℝ) ≤ height := by exact_mod_cast hh
  rcases argmaxFold_fst_mem
      (fun c => ringScore width height (colorScoreMap width height frame) c
        (testRadius width height))
      ((width : ℝ) / 2, (height : ℝ) / 2) (centerCandidates width height) with hinit | hmem
  · unfold bestCenter
    rw [hinit]
    refine ⟨by positivity, by dsimp only; linarith, by positivity, by dsimp only; linarith⟩
  · exact centerCandidates_bounds width height hw hh _ hmem

/-- The radius loop candidates, head and tail. -/
theorem radiusCandidates_cons (width height : ℕ) :
    radiusCandidates width height = minRadius width height ::
      (List.range (min width height / 10)).map
        (fun k => minRadius width height + 3 * ((k + 1 : ℕ) : ℝ)) := by
  unfold radiusCandidates
  rw [List.range_succ_eq_map]
  simp only [List.map_cons, List.map_map, Nat.cast_zero]
  refine congrArg₂ List.cons (by norm_num) ?_
  apply List.map_congr_left
  intro a _
  simp [Function.comp_apply, Nat.succ_eq_add_one]

/-- On an all-black frame the radius search never improves on its first
candidate `minRadius`, so the best radius is 0 (if even the first score is
0) or `minRadius` itself. -/
theorem bestRadius_fst_cases (width height : ℕ) (frame : ℕ → ℕ × ℕ × ℕ)
    (hw : 3 ≤ width) (hh : 3 ≤ height) (hf : ∀ p, frame p = (0, 0, 0)) :
    (bestRadius width height frame).1 = 0 ∨
    (bestRadius width height frame).1 = minRadius width height := by
  obtain ⟨hb1, hb2, hb3, hb4⟩ := bestCenter_fst_bounds width height frame hw hh
  have hminR : (0 : ℝ) ≤ minRadius width height := by
    unfold minRadius
    positivity
  unfold bestRadius
  rw [radiusCandidates_cons]
  apply argmaxFold_fst_of_head_max
  intro x hx
  simp only [List.mem_map, List.mem_range] at hx
  obtain ⟨k, _, rfl⟩ := hx
  apply radiusScoreAt_anti width height frame hf _ hb1 hb2 hb3 hb4 _ _ hminR
  have : (0 : ℝ) ≤ 3 * ((k + 1 : ℕ) : ℝ) := by positivity
  linarith

/-- C9: on a uniform all-black frame `autoDetectDartboard` returns the
fallback default calibration — center at the image center, radius
`min(width, height) / 3` — because the acceptance condition
`bestScore > 5 && bestRadius > minRadius` fails: every pixel is
board-colored, so the radius score never improves on the very first
candidate `minRadius` and the strict argmax sticks there (or at its
initial 0). -/
theorem autoDetectDartboard_allBlack (width height : ℕ) (frame : ℕ → ℕ × ℕ × ℕ)
    (hw : 3 ≤ width) (hh : 3 ≤ height) (hf : ∀ p, frame p = (0, 0, 0)) :
    autoDetectDartboard width height frame =
      (jsRound ((width : ℝ) / 2), jsRound ((height : ℝ) / 2),
       jsRound ((min width height : ℕ) / 3)) := by
  unfold autoDetectDartboard
  rw [if_neg]
  rintro ⟨-, hlt⟩
  rcases bestRadius_fst_cases width height frame hw hh hf with h0 | hm
  · rw [h0] at hlt
    have : (0 : ℝ) ≤ minRadius width height := by unfold minRadius; positivity
    linarith
  · rw [hm] at hlt
    exact lt_irrefl _ hlt

/-- Witness for C9: a 3×3 all-black frame. -/
theorem autoDetectDartboard_allBlack_witness :
    ((3 : ℕ) ≤ 3 ∧ ∀ p : ℕ, (fun _ : ℕ => ((0, 0, 0) : ℕ × ℕ × ℕ)) p = (0, 0, 0)) ∧
    autoDetectDartboard 3 3 (fun _ => (0, 0, 0)) =
      (jsRound ((3 : ℝ) / 2), jsRound ((3 : ℝ) / 2), jsRound ((min 3 3 : ℕ) / 3)) :=
  ⟨⟨by norm_num, fun _ => rfl⟩,
   autoDetectDartboard_allBlack 3 3 (fun _ => (0, 0, 0)) (by norm_num) (by norm_num)
     (fun _ => rfl)⟩
